import Mathlib

/-!
Verification of the InternetOfEmotions core against its specification.

The development shallowly embeds the consensus aggregation engine
(src/archive/old_monolith/backend/country_emotion_aggregator.py and
src/backend/services/country_aggregation/app.py) and the smart scheduler
(src/backend/smart_scheduler.py).  Real numbers of the source are modelled
as rationals; Python dictionaries keyed by emotion label are modelled as a
key list in first-insertion order together with a value function, which is
exactly how the source iterates them.
-/

/-- Keys of a Python dict built by inserting elements of a list in order,
relative to a set of keys already seen. -/
def keyListAux (seen : List String) : List String → List String
  | [] => []
  | e :: rest => if e ∈ seen then keyListAux seen rest else e :: keyListAux (e :: seen) rest

/-- Keys of a Python dict built by inserting elements of a list in order:
each distinct element once, in order of first occurrence. -/
def keyList (l : List String) : List String := keyListAux [] l

/-- Left fold of the Python builtin max over a nonempty iteration, keyed by f:
keeps the earliest element among ties, switches only on a strictly larger key. -/
def argmaxAux {β : Type} [LinearOrder β] (f : String → β) : String → List String → String
  | b, [] => b
  | b, x :: xs => argmaxAux f (if f b < f x then x else b) xs

/-- Python max(iterable, key) over a list of keys; none models the ValueError
raised on an empty iterable. -/
def pyMax {β : Type} [LinearOrder β] (f : String → β) (l : List String) : Option String :=
  match l with
  | [] => none
  | k :: ks => some (argmaxAux f k ks)

/-- Counter(l).most_common(1): the element of l with the largest count,
ties resolved toward the earliest first occurrence, paired with its count.
Returns none exactly on the empty list, where the source would raise. -/
def pyMostCommon (l : List String) : Option (String × Nat) :=
  match pyMax (fun e => l.count e) (keyList l) with
  | none => none
  | some m => some (m, l.count m)

/-- Counter(l) as a dict: keys in first-occurrence order with their counts. -/
def counter (l : List String) : List (String × Nat) :=
  (keyList l).map (fun e => (e, l.count e))

/-- Arithmetic mean of a list, embedding np.mean; the sources only apply it
to nonempty lists. -/
def mean (l : List ℚ) : ℚ := l.sum / (l.length : ℚ)

/-- Insertion step of an ascending sort on rationals. -/
def insertSorted (x : ℚ) : List ℚ → List ℚ
  | [] => [x]
  | y :: ys => if x ≤ y then x :: y :: ys else y :: insertSorted x ys

/-- Ascending sort on rationals. -/
def sortQ (l : List ℚ) : List ℚ := l.foldr insertSorted []

/-- Median of a list, embedding np.median: the middle element of the sorted
list, or the average of the two middle elements for even length; the sources
only apply it to nonempty lists. -/
def median (l : List ℚ) : ℚ :=
  let s := sortQ l
  let n := s.length
  if n = 0 then 0
  else if n % 2 = 1 then s.getD (n / 2) 0
  else (s.getD (n / 2 - 1) 0 + s.getD (n / 2) 0) / 2

/-- The fixed emotion intensity table declared identically by both aggregator
classes; the final branch is the .get default of 0.5 for unknown labels. -/
def emotion_intensity (e : String) : ℚ :=
  if e = "anger" then 95/100
  else if e = "fear" then 9/10
  else if e = "disgust" then 85/100
  else if e = "sadness" then 7/10
  else if e = "surprise" then 6/10
  else if e = "joy" then 8/10
  else if e = "neutral" then 3/10
  else 1/2

/-- A post as read by the monolith aggregator: the confidence key may be
absent, in which case p.get defaults it to 0.5. -/
structure Post where
  emotion : String
  confidence : Option ℚ
deriving DecidableEq

/-- A post as read by the country aggregation service: the confidence key is
accessed directly, hence required. -/
structure SPost where
  emotion : String
  confidence : ℚ
deriving DecidableEq

/-- The embedding of a service post into a monolith post: the confidence key
is present and explicit. -/
def toPost (p : SPost) : Post := { emotion := p.emotion, confidence := some p.confidence }

namespace Monolith

/-- Algorithm 1 of the monolith: simple majority vote; the empty guard of
the source returns the neutral pair. -/
def majority_vote (emotions : List String) : String × ℚ :=
  match pyMostCommon emotions with
  | none => ("neutral", 0)
  | some (m, c) => (m, (c : ℚ) / (emotions.length : ℚ))

/-- Algorithm 2 of the monolith: average confidence per label times its
frequency weight; argmax in dict insertion order. -/
def weighted_vote (emotions : List String) (confidences : List ℚ) : String × ℚ :=
  if emotions = [] ∨ confidences = [] then ("neutral", 0)
  else
    let pairs := emotions.zip confidences
    let weight := fun e =>
      let cl := (pairs.filter (fun p => p.1 == e)).map (fun p => p.2)
      mean cl * ((cl.length : ℚ) / (emotions.length : ℚ))
    match pyMax weight (keyList (pairs.map (fun p => p.1))) with
    | none => ("neutral", 0)
    | some b => (b, weight b)

/-- Algorithm 3 of the monolith: per-label sum of intensity times confidence,
argmax, normalized by the sum over all labels when that sum is positive. -/
def intensity_weighted_vote (emotions : List String) (confidences : List ℚ) : String × ℚ :=
  if emotions = [] ∨ confidences = [] then ("neutral", 0)
  else
    let pairs := emotions.zip confidences
    let total_score := fun e =>
      ((pairs.filter (fun p => p.1 == e)).map (fun p => emotion_intensity p.1 * p.2)).sum
    let keys := keyList (pairs.map (fun p => p.1))
    match pyMax total_score keys with
    | none => ("neutral", 0)
    | some b =>
      let total_intensity := (keys.map total_score).sum
      (b, if 0 < total_intensity then total_score b / total_intensity else 0)

/-- Algorithm 4 of the monolith: per-label median of intensity times
confidence, argmax, normalized by the sum of the medians when positive. -/
def intensity_median_vote (emotions : List String) (confidences : List ℚ) : String × ℚ :=
  if emotions = [] ∨ confidences = [] then ("neutral", 0)
  else
    let pairs := emotions.zip confidences
    let median_score := fun e =>
      median ((pairs.filter (fun p => p.1 == e)).map (fun p => emotion_intensity p.1 * p.2))
    let keys := keyList (pairs.map (fun p => p.1))
    match pyMax median_score keys with
    | none => ("neutral", 0)
    | some b =>
      let total_median := (keys.map median_score).sum
      (b, if 0 < total_median then median_score b / total_median else 0)

/-- The consensus step of the monolith: Counter most_common over the four
winning labels listed in declaration order. -/
def consensus_emotion (votes : List String) : Option String :=
  (pyMostCommon votes).map (fun p => p.1)

/-- The confidence step of the monolith: agreement share of the dominant
label times 0.6 plus mean raw confidence times 0.4, capped at 1. -/
def calculate_confidence (emotion : String) (distribution : List (String × Nat))
    (confidences : List ℚ) : ℚ :=
  let emotion_count : Nat := ((distribution.lookup emotion).getD 0)
  let total_posts : Nat := (distribution.map (fun p => p.2)).sum
  let agreement : ℚ := if 0 < total_posts then (emotion_count : ℚ) / (total_posts : ℚ) else 0
  let avg_confidence := mean confidences
  min (agreement * (6/10) + avg_confidence * (4/10)) 1

/-- Per-label mean of confidence times intensity. -/
def calculate_weighted_scores (emotions : List String) (confidences : List ℚ) :
    List (String × ℚ) :=
  let pairs := emotions.zip confidences
  (keyList (pairs.map (fun p => p.1))).map
    (fun e => (e, mean ((pairs.filter (fun p => p.1 == e)).map
      (fun p => p.2 * emotion_intensity p.1))))

/-- The four algorithm votes of the monolith result, each a label with its
vote strength, stored in declaration order. -/
structure AlgoVotes where
  majority : String × ℚ
  weighted : String × ℚ
  intensity : String × ℚ
  intensity_median : String × ℚ

/-- The monolith aggregation result: confidence is kept before the final
decimal rounding that the source applies when serializing the dict; the
empty-input return of the source carries no algorithm votes key, hence the
Option. -/
structure MonoResult where
  dominant_emotion : String
  confidence : ℚ
  distribution : List (String × Nat)
  weighted_scores : List (String × ℚ)
  algorithm_votes : Option AlgoVotes

/-- aggregate_country_emotions of the monolith: the empty guard returns the
fixed neutral result; otherwise the four algorithms run, the consensus label
is taken, and the combined confidence is computed. -/
def aggregate_country_emotions (posts : List Post) : MonoResult :=
  if posts = [] then
    { dominant_emotion := "neutral", confidence := 0, distribution := [],
      weighted_scores := [], algorithm_votes := none }
  else
    let emotions := posts.map (fun p => p.emotion)
    let confidences := posts.map (fun p => p.confidence.getD (1/2))
    let rMaj := majority_vote emotions
    let rW := weighted_vote emotions confidences
    let rI := intensity_weighted_vote emotions confidences
    let rM := intensity_median_vote emotions confidences
    let final_emotion := (consensus_emotion [rMaj.1, rW.1, rI.1, rM.1]).getD "neutral"
    let emotion_counts := counter emotions
    { dominant_emotion := final_emotion,
      confidence := calculate_confidence final_emotion emotion_counts confidences,
      distribution := emotion_counts,
      weighted_scores := calculate_weighted_scores emotions confidences,
      algorithm_votes := some ⟨rMaj, rW, rI, rM⟩ }

end Monolith

namespace Service

/-- Algorithm 1 of the service: simple majority vote; no empty guard in the
source, so the empty list is the error case. -/
def majority_vote (emotions : List String) : Option (String × ℚ) :=
  (pyMostCommon emotions).map (fun p => (p.1, (p.2 : ℚ) / (emotions.length : ℚ)))

/-- Algorithm 2 of the service: average confidence per label times its
frequency weight; argmax in dict insertion order. -/
def weighted_vote (emotions : List String) (confidences : List ℚ) : Option (String × ℚ) :=
  let pairs := emotions.zip confidences
  let weight := fun e =>
    let cl := (pairs.filter (fun p => p.1 == e)).map (fun p => p.2)
    mean cl * ((cl.length : ℚ) / (emotions.length : ℚ))
  (pyMax weight (keyList (pairs.map (fun p => p.1)))).map (fun b => (b, weight b))

/-- Algorithm 3 of the service: per-label sum of intensity times confidence,
argmax, normalized by the sum over all labels when that sum is positive. -/
def intensity_weighted_vote (emotions : List String) (confidences : List ℚ) :
    Option (String × ℚ) :=
  let pairs := emotions.zip confidences
  let total_score := fun e =>
    ((pairs.filter (fun p => p.1 == e)).map (fun p => emotion_intensity p.1 * p.2)).sum
  let keys := keyList (pairs.map (fun p => p.1))
  (pyMax total_score keys).map (fun b =>
    let total_intensity := (keys.map total_score).sum
    (b, if 0 < total_intensity then total_score b / total_intensity else 0))

/-- Algorithm 4 of the service: per-label median of intensity times
confidence, argmax, normalized by the sum of the medians when positive. -/
def intensity_median_vote (emotions : List String) (confidences : List ℚ) :
    Option (String × ℚ) :=
  let pairs := emotions.zip confidences
  let median_score := fun e =>
    median ((pairs.filter (fun p => p.1 == e)).map (fun p => emotion_intensity p.1 * p.2))
  let keys := keyList (pairs.map (fun p => p.1))
  (pyMax median_score keys).map (fun b =>
    let total_median := (keys.map median_score).sum
    (b, if 0 < total_median then median_score b / total_median else 0))

/-- The consensus step of the service: Counter most_common over the four
winning labels listed in declaration order. -/
def consensus_emotion (votes : List String) : Option String :=
  (pyMostCommon votes).map (fun p => p.1)

/-- The confidence step of the service, identical in the source to the
monolith version. -/
def calculate_confidence (emotion : String) (distribution : List (String × Nat))
    (confidences : List ℚ) : ℚ :=
  let emotion_count : Nat := ((distribution.lookup emotion).getD 0)
  let total : Nat := (distribution.map (fun p => p.2)).sum
  let agreement : ℚ := if 0 < total then (emotion_count : ℚ) / (total : ℚ) else 0
  let avg_confidence := mean confidences
  min (agreement * (6/10) + avg_confidence * (4/10)) 1

/-- Per-label mean of confidence times intensity, identical in the source to
the monolith version. -/
def calculate_weighted_scores (emotions : List String) (confidences : List ℚ) :
    List (String × ℚ) :=
  let pairs := emotions.zip confidences
  (keyList (pairs.map (fun p => p.1))).map
    (fun e => (e, mean ((pairs.filter (fun p => p.1 == e)).map
      (fun p => p.2 * emotion_intensity p.1))))

/-- The four algorithm winning labels of the service result, stored in
declaration order under the keys majority, weighted, intensity, median. -/
structure SVotes where
  majority : String
  weighted : String
  intensity : String
  median : String

/-- The service aggregation result: confidence is kept before the final
decimal rounding the source applies when serializing the dict. -/
structure SResult where
  dominant_emotion : String
  confidence : ℚ
  algorithm_votes : SVotes
  post_count : Nat
  emotion_distribution : List (String × Nat)
  weighted_scores : List (String × ℚ)
  average_confidence : ℚ

/-- aggregate of the service: an empty observation list yields None; otherwise
the four algorithms run, the consensus label is taken, and the combined
confidence is computed. -/
def aggregate (posts : List SPost) : Option SResult :=
  match posts with
  | [] => none
  | _ :: _ =>
    let emotions := posts.map (fun p => p.emotion)
    let confidences := posts.map (fun p => p.confidence)
    do
      let mj ← majority_vote emotions
      let w ← weighted_vote emotions confidences
      let iw ← intensity_weighted_vote emotions confidences
      let md ← intensity_median_vote emotions confidences
      let fin ← consensus_emotion [mj.1, w.1, iw.1, md.1]
      let emotion_counts := counter emotions
      some { dominant_emotion := fin,
             confidence := calculate_confidence fin emotion_counts confidences,
             algorithm_votes := ⟨mj.1, w.1, iw.1, md.1⟩,
             post_count := posts.length,
             emotion_distribution := emotion_counts,
             weighted_scores := calculate_weighted_scores emotions confidences,
             average_confidence := mean confidences }

end Service

/-- The fixed negative label subset used by trend classification. -/
def negative_emotions : List String := ["anger", "fear", "sadness", "disgust"]

/-- calculate_trend_direction of the monolith, applied to the per-window
dominant emotion labels in time order: the recent window is the last three
entries, the old window is everything before them, except that with at most
three entries the old count is defined to be the recent count. -/
def calculate_trend_direction (trends : List String) : String :=
  if trends.length < 2 then "insufficient_data"
  else
    let recent_negatives :=
      (trends.drop (trends.length - 3)).countP (fun e => negative_emotions.contains e)
    let old_negatives :=
      if 3 < trends.length then
        (trends.take (trends.length - 3)).countP (fun e => negative_emotions.contains e)
      else recent_negatives
    if old_negatives < recent_negatives then "worsening"
    else if recent_negatives < old_negatives then "improving"
    else "stable"

/-- Trend classification as worded by the specification: compare the count of
negative labels in the most recent third of the sequence against the count in
the earliest third. -/
def trend_direction_spec (trends : List String) : String :=
  if trends.length < 2 then "insufficient_data"
  else
    let third := trends.length / 3
    let recent_negatives :=
      (trends.drop (trends.length - third)).countP (fun e => negative_emotions.contains e)
    let earliest_negatives :=
      (trends.take third).countP (fun e => negative_emotions.contains e)
    if earliest_negatives < recent_negatives then "worsening"
    else if recent_negatives < earliest_negatives then "improving"
    else "stable"

/-- Per-country mutable metrics of the smart scheduler; timestamps are
seconds as rationals, mirroring datetime arithmetic in the source. -/
structure CountryMetrics where
  last_fetch : Option ℚ
  post_rate : ℚ
  importance : ℚ
  success_rate : ℚ
  consecutive_failures : Nat
deriving DecidableEq

/-- The defaultdict metrics entry of the scheduler, with the importance
weight assigned at startup. -/
def defaultMetrics (importance : ℚ) : CountryMetrics :=
  { last_fetch := none, post_rate := 0, importance := importance,
    success_rate := 1, consecutive_failures := 0 }

/-- A fetch outcome as consumed by update_metrics: the error key truthiness
and the stored count with default 0. -/
structure FetchResult where
  error : Bool
  stored : Nat
deriving DecidableEq

/-- update_metrics of the SmartScheduler.  The source reads the wall clock
twice: once at the top of the call where it overwrites last_fetch, and once
in the success branch when recomputing the post rate; now is the first
reading and now2 the second.  The truthiness test on last_fetch in the
success branch is kept as the Option match even though the field was just
assigned. -/
def update_metrics (m : CountryMetrics) (result : FetchResult) (now now2 : ℚ) :
    CountryMetrics :=
  let m1 := { m with last_fetch := some now }
  if result.error = true then
    { m1 with consecutive_failures := m1.consecutive_failures + 1,
              success_rate := m1.success_rate * (9/10) }
  else if 0 < result.stored then
    let m2 := { m1 with consecutive_failures := 0,
                        success_rate := min (m1.success_rate * (11/10)) 1 }
    match m2.last_fetch with
    | none => m2
    | some lf =>
      let hours := (now2 - lf) / 3600
      if 0 < hours then { m2 with post_rate := (result.stored : ℚ) / hours } else m2
  else
    { m1 with consecutive_failures := m1.consecutive_failures + 1 }

/-- calculate_priority_score of the SmartScheduler; raw and analyzed counts
are the two external storage reads, of which only the raw count is used. -/
def calculate_priority_score (m : CountryMetrics) (raw_count : Nat)
    (_analyzed_count : Nat) (now : ℚ) : ℚ :=
  let data_need : ℚ :=
    if raw_count < 20 then 10
    else if raw_count < 50 then 7
    else if raw_count < 100 then 4
    else 1
  let success_penalty :=
    if 3 < m.consecutive_failures then m.success_rate * (1/2) else m.success_rate
  let time_decay : ℚ :=
    match m.last_fetch with
    | some lf => min ((now - lf) / 3600 / 24) 3
    | none => 5
  let activity_boost := 1 + min (m.post_rate / 10) 2
  (data_need * 2 + m.importance * (3/2) + time_decay * 1) * success_penalty * activity_boost

/-- Metrics states reachable from a startup entry through update_metrics
steps. -/
inductive Reachable : CountryMetrics → Prop where
  | init : ∀ imp, Reachable (defaultMetrics imp)
  | step : ∀ m result now now2, Reachable m → Reachable (update_metrics m result now now2)

/-- Per-type TTLs of the SmartCacheManager, with the .get default of 60
seconds for unknown cache types. -/
def cache_ttl (cache_type : String) : ℚ :=
  if cache_type = "emotions" then 30
  else if cache_type = "country_emotion" then 120
  else if cache_type = "country_stats" then 60
  else if cache_type = "global_stats" then 30
  else if cache_type = "country_posts" then 180
  else 60

/-- The concatenated dict key used by the cache manager. -/
def cacheKey (cache_type key : String) : String := cache_type ++ ":" ++ key

/-- The SmartCacheManager state: the paired cache and cache_times dicts of the
source, combined into one map since every write and delete updates both
together. -/
structure CacheState (α : Type) where
  entries : String → Option (α × ℚ)

namespace SmartCacheManager

/-- get of the SmartCacheManager: a miss on an absent key; on a present key
the entry is returned while its age is at most the TTL of its type and is
deleted with a miss reported once the age exceeds it. -/
def get {α : Type} (s : CacheState α) (cache_type key : String) (now : ℚ) :
    Option α × CacheState α :=
  let ck := cacheKey cache_type key
  match s.entries ck with
  | none => (none, s)
  | some (v, inserted) =>
    let age := now - inserted
    let ttl := cache_ttl cache_type
    if ttl < age then
      (none, ⟨fun k => if k = ck then none else s.entries k⟩)
    else (some v, s)

/-- set of the SmartCacheManager: stores the value with the current time,
overwriting any previous entry under the same key. -/
def set {α : Type} (s : CacheState α) (cache_type key : String) (value : α)
    (now : ℚ) : CacheState α :=
  ⟨fun k => if k = cacheKey cache_type key then some (value, now) else s.entries k⟩

end SmartCacheManager

/-- The SmartMLProcessor resource state: whether models are loaded, the
models dict itself, the last-used timestamp, and the configured idle
timeout of 600 seconds. -/
structure MLState where
  models_loaded : Bool
  models : Option Unit
  last_used : Option ℚ
  idle_timeout : ℚ

/-- The initial SmartMLProcessor state. -/
def initMLState : MLState :=
  { models_loaded := false, models := none, last_used := none, idle_timeout := 600 }

/-- load_models_lazy of the SmartMLProcessor: when already loaded only the
last-used time is refreshed; otherwise the models are acquired, the loaded
flag set, and the last-used time set. -/
def load_models_lazy (s : MLState) (now : ℚ) : MLState :=
  if s.models_loaded = true then { s with last_used := some now }
  else { s with models := some (), models_loaded := true, last_used := some now }

/-- unload_models_if_idle of the SmartMLProcessor: an early return when not
loaded; otherwise the idle time is measured against the timeout and the
models are released exactly when it is exceeded.  A loaded state with no
last-used time would raise in the source, modelled as none. -/
def unload_models_if_idle (s : MLState) (now : ℚ) : Option MLState :=
  if s.models_loaded = false then some s
  else
    match s.last_used with
    | none => none
    | some lu =>
      if s.idle_timeout < now - lu then
        some { s with models := none, models_loaded := false }
      else some s

/-! Helper lemmas about the dict-iteration utilities. -/

lemma mem_keyListAux {e : String} :
    ∀ (l seen : List String), e ∈ keyListAux seen l ↔ e ∈ l ∧ e ∉ seen := by
  intro l
  induction l with
  | nil => intro seen; simp [keyListAux]
  | cons a rest ih =>
    intro seen
    by_cases ha : a ∈ seen
    · rw [keyListAux, if_pos ha, ih]
      constructor
      · rintro ⟨h1, h2⟩; exact ⟨List.mem_cons_of_mem _ h1, h2⟩
      · rintro ⟨h1, h2⟩
        rcases List.mem_cons.mp h1 with rfl | h1
        · exact absurd ha h2
        · exact ⟨h1, h2⟩

    · rw [keyListAux, if_neg ha]
      simp only [List.mem_cons, ih]
      constructor
      · rintro (rfl | ⟨h1, h2⟩)
        · exact ⟨Or.inl rfl, ha⟩
        · exact ⟨Or.inr h1, fun hs => h2 (Or.inr hs)⟩
      · rintro ⟨rfl | h1, h2⟩
        · exact Or.inl rfl
        · by_cases hea : e = a
          · exact Or.inl hea
          · exact Or.inr ⟨h1, by simp [hea, h2]⟩

lemma mem_keyList {e : String} {l : List String} : e ∈ keyList l ↔ e ∈ l := by
  simp [keyList, mem_keyListAux]

lemma keyList_cons (e : String) (rest : List String) :
    keyList (e :: rest) = e :: keyListAux [e] rest := by
  simp [keyList, keyListAux]

lemma argmaxAux_spec {β : Type} [LinearOrder β] (f : String → β) :
    ∀ (l : List String) (b : String),
      (argmaxAux f b l = b ∨ argmaxAux f b l ∈ l) ∧
      f b ≤ f (argmaxAux f b l) ∧ ∀ x ∈ l, f x ≤ f (argmaxAux f b l) := by
  intro l
  induction l with
  | nil => intro b; exact ⟨Or.inl rfl, le_refl _, by simp⟩
  | cons x xs ih =>
    intro b
    rw [argmaxAux]
    obtain ⟨hmem, hself, hall⟩ := ih (if f b < f x then x else b)
    have hb : f b ≤ f (if f b < f x then x else b) := by
      split
      · exact le_of_lt (by assumption)
      · exact le_refl _
    have hx : f x ≤ f (if f b < f x then x else b) := by
      split
      · exact le_refl _
      · exact le_of_not_lt (by assumption)
    refine ⟨?_, le_trans hb hself, ?_⟩
    · rcases hmem with hmem | hmem
      · rw [hmem]
        split
        · exact Or.inr (List.mem_cons_self _ _)
        · exact Or.inl rfl
      · exact Or.inr (List.mem_cons_of_mem _ hmem)
    · intro y hy
      rcases List.mem_cons.mp hy with rfl | hy
      · exact le_trans hx hself
      · exact hall y hy

lemma argmaxAux_eq_self {β : Type} [LinearOrder β] (f : String → β) :
    ∀ (l : List String) (b : String), (∀ x ∈ l, f x ≤ f b) → argmaxAux f b l = b := by
  intro l
  induction l with
  | nil => intro b _; rfl
  | cons x xs ih =>
    intro b h
    rw [argmaxAux, if_neg (not_lt.mpr (h x (List.mem_cons_self _ _)))]
    exact ih b (fun y hy => h y (List.mem_cons_of_mem _ hy))

lemma pyMostCommon_spec (l : List String) (h : l ≠ []) :
    ∃ m, pyMostCommon l = some (m, l.count m) ∧ m ∈ l ∧ ∀ x, l.count x ≤ l.count m := by
  obtain ⟨e, rest, rfl⟩ := List.exists_cons_of_ne_nil h
  rw [pyMostCommon, keyList_cons, pyMax]
  obtain ⟨hmem, hself, hall⟩ :=
    argmaxAux_spec (fun x => (e :: rest).count x) (keyListAux [e] rest) e
  refine ⟨argmaxAux (fun x => (e :: rest).count x) e (keyListAux [e] rest), rfl, ?_, ?_⟩
  · rcases hmem with hmem | hmem
    · rw [hmem]; exact List.mem_cons_self _ _
    · exact List.mem_cons_of_mem _ ((mem_keyListAux _ _).mp hmem).1
  · intro x
    by_cases hx : x ∈ e :: rest
    · rcases List.mem_cons.mp hx with rfl | hx
      · exact hself
      · by_cases hxe : x = e
        · rw [hxe]; exact hself
        · exact hall x ((mem_keyListAux _ _).mpr ⟨hx, by simp [hxe]⟩)
    · rw [List.count_eq_zero.mpr hx]
      exact Nat.zero_le _

lemma nodup_keyListAux : ∀ (l seen : List String), (keyListAux seen l).Nodup := by
  intro l
  induction l with
  | nil => intro _; simp [keyListAux]
  | cons e rest ih =>
    intro seen
    by_cases hs : e ∈ seen
    · rw [keyListAux, if_pos hs]; exact ih seen
    · rw [keyListAux, if_neg hs]
      refine List.nodup_cons.mpr ⟨?_, ih (e :: seen)⟩
      intro hmem
      exact ((mem_keyListAux _ _).mp hmem).2 (List.mem_cons_self _ _)

/-! Helper lemmas about Counter dicts. -/

lemma lookup_map_pair (ks : List String) (f : String → Nat) (e : String) :
    (ks.map (fun k => (k, f k))).lookup e = if e ∈ ks then some (f e) else none := by
  induction ks with
  | nil => simp
  | cons k ks ih =>
    by_cases hek : e = k
    · subst hek
      simp [List.lookup]
    · simp [List.lookup, beq_eq_false_iff_ne.mpr hek, hek, ih]

lemma lookup_counter (l : List String) (e : String) :
    ((counter l).lookup e).getD 0 = l.count e := by
  rw [counter, lookup_map_pair]
  by_cases h : e ∈ keyList l
  · rw [if_pos h]; rfl
  · rw [if_neg h, Option.getD_none,
      Eq.comm, List.count_eq_zero]
    exact fun hmem => h (mem_keyList.mpr hmem)

lemma toFinset_keyList (l : List String) : (keyList l).toFinset = l.toFinset := by
  ext a
  simp [List.mem_toFinset, mem_keyList]

lemma nodup_keyList (l : List String) : (keyList l).Nodup := nodup_keyListAux l []

lemma sum_counter (l : List String) :
    ((counter l).map (fun p => p.2)).sum = l.length := by
  have h1 : (counter l).map (fun p => p.2) = (keyList l).map (fun k => l.count k) := by
    simp [counter, List.map_map]
  rw [h1, ← List.sum_toFinset _ (nodup_keyList l), toFinset_keyList,
    List.sum_toFinset_count_eq_length]

/-! Bounds for means of bounded lists. -/

lemma list_sum_le_length (cs : List ℚ) (h : ∀ c ∈ cs, c ≤ 1) : cs.sum ≤ (cs.length : ℚ) := by
  induction cs with
  | nil => simp
  | cons c cs ih =>
    have h1 := h c (List.mem_cons_self _ _)
    have h2 := ih (fun x hx => h x (List.mem_cons_of_mem _ hx))
    rw [List.sum_cons, List.length_cons]
    push_cast
    linarith

/-! Claim theorems. -/

/-- Claim C1, counterexample: the country aggregation service aggregator,
given zero observations, returns None rather than a defined neutral result. -/
theorem c1_service_empty_counterexample : Service.aggregate [] = none := rfl

/-- Claim C1, amended: for zero observations the archived monolith engine
returns the defined neutral result with dominant label neutral and
confidence 0, while the country aggregation service aggregator returns no
result at all (None). -/
theorem c1_empty_aggregation :
    (Monolith.aggregate_country_emotions []).dominant_emotion = "neutral" ∧
    (Monolith.aggregate_country_emotions []).confidence = 0 ∧
    (Monolith.aggregate_country_emotions []).algorithm_votes = none ∧
    Service.aggregate [] = none := by
  refine ⟨?_, ?_, ?_, rfl⟩ <;> simp [Monolith.aggregate_country_emotions]

/-- Claim C2: update_metrics overwrites last_fetch with the current time at
the top of the call, so on a successful fetch with five posts stored ten
hours after the previous fetch the post rate stays 0 instead of becoming the
0.5 posts per hour that the specification describes, even though the claimed
elapsed-hours quotient is well defined and equals 1/2. -/
theorem c2_postrate_never_recomputed :
    (update_metrics ⟨some 0, 0, 1, 1, 0⟩ ⟨false, 5⟩ 36000 36000).post_rate = 0 ∧
    (update_metrics ⟨some 0, 0, 1, 1, 0⟩ ⟨false, 5⟩ 36000 36000).last_fetch = some 36000 ∧
    (5 : ℚ) / ((36000 - 0) / 3600) = 1/2 := by
  refine ⟨?_, ?_, by norm_num⟩ <;> norm_num [update_metrics]

/-- Claim C3, counterexample: on nine windows with three negatives in the
middle, the earliest third and the most recent third hold equally many
negative labels, so the claim predicts stable, yet the code classifies the
trend as improving because it compares the last three windows with all six
earlier windows. -/
theorem c3_thirds_counterexample :
    calculate_trend_direction
      ["neutral", "neutral", "neutral", "anger", "anger", "anger",
       "neutral", "neutral", "neutral"] = "improving" ∧
    trend_direction_spec
      ["neutral", "neutral", "neutral", "anger", "anger", "anger",
       "neutral", "neutral", "neutral"] = "stable" ∧
    (["neutral", "neutral", "neutral", "anger", "anger", "anger",
      "neutral", "neutral", "neutral"].take 3).countP
        (fun e => negative_emotions.contains e) =
    (["neutral", "neutral", "neutral", "anger", "anger", "anger",
      "neutral", "neutral", "neutral"].drop 6).countP
        (fun e => negative_emotions.contains e) := by
  decide

/-- Claim C3, amended: trend classification returns insufficient data for
fewer than two windows; with two or three windows it always returns stable;
with more than three windows it compares the count of negative labels in the
last three windows against the count in all earlier windows, more recent
negatives giving worsening, fewer giving improving, and equal counts giving
stable. -/
theorem c3_trend_last_three_vs_rest (l : List String) :
    (l.length < 2 → calculate_trend_direction l = "insufficient_data") ∧
    (2 ≤ l.length → l.length ≤ 3 → calculate_trend_direction l = "stable") ∧
    (3 < l.length →
      calculate_trend_direction l =
        (if (l.take (l.length - 3)).countP (fun e => negative_emotions.contains e) <
            (l.drop (l.length - 3)).countP (fun e => negative_emotions.contains e) then
          "worsening"
         else if (l.drop (l.length - 3)).countP (fun e => negative_emotions.contains e) <
            (l.take (l.length - 3)).countP (fun e => negative_emotions.contains e) then
          "improving"
         else "stable")) := by
  refine ⟨?_, ?_, ?_⟩
  · intro h
    rw [calculate_trend_direction, if_pos h]
  · intro h2 h3
    rw [calculate_trend_direction, if_neg (by omega)]
    simp only [if_neg (by omega : ¬ 3 < l.length)]
    rw [if_neg (lt_irrefl _), if_neg (lt_irrefl _)]
  · intro h
    rw [calculate_trend_direction, if_neg (by omega)]
    simp only [if_pos h]

/-- Claim C3 witness: with exactly two windows the code returns stable. -/
theorem c3_trend_witness :
    2 ≤ (["anger", "joy"] : List String).length ∧
    calculate_trend_direction ["anger", "joy"] = "stable" :=
  ⟨by decide, (c3_trend_last_three_vs_rest ["anger", "joy"]).2.1 (by decide) (by decide)⟩

lemma update_success_rate_cases (m : CountryMetrics) (r : FetchResult) (now now2 : ℚ) :
    (update_metrics m r now now2).success_rate = m.success_rate * (9/10) ∨
    (update_metrics m r now now2).success_rate = min (m.success_rate * (11/10)) 1 ∨
    (update_metrics m r now now2).success_rate = m.success_rate := by
  simp only [update_metrics]
  split_ifs <;> simp

lemma reachable_success_rate_pos {m : CountryMetrics} (h : Reachable m) :
    0 < m.success_rate := by
  induction h with
  | init imp => simp [defaultMetrics]
  | step m r now now2 _ ih =>
    rcases update_success_rate_cases m r now now2 with h | h | h <;> rw [h]
    · exact mul_pos ih (by norm_num)
    · exact lt_min (mul_pos ih (by norm_num)) one_pos
    · exact ih

/-- Claim C6: from any reachable metrics state, an erred fetch outcome
multiplies the success rate by exactly 0.9, which strictly decreases it and
keeps it nonnegative, and increments the consecutive failure count. -/
theorem c6_erred_decreases (m : CountryMetrics) (h : Reachable m) (stored : Nat)
    (now now2 : ℚ) :
    (update_metrics m ⟨true, stored⟩ now now2).success_rate = m.success_rate * (9/10) ∧
    (update_metrics m ⟨true, stored⟩ now now2).success_rate < m.success_rate ∧
    0 ≤ (update_metrics m ⟨true, stored⟩ now now2).success_rate ∧
    (update_metrics m ⟨true, stored⟩ now now2).consecutive_failures
      = m.consecutive_failures + 1 := by
  have hpos := reachable_success_rate_pos h
  have hsr : (update_metrics m ⟨true, stored⟩ now now2).success_rate
      = m.success_rate * (9/10) := by
    simp [update_metrics]
  have hcf : (update_metrics m ⟨true, stored⟩ now now2).consecutive_failures
      = m.consecutive_failures + 1 := by
    simp [update_metrics]
  refine ⟨hsr, ?_, ?_, hcf⟩
  · rw [hsr]
    nlinarith
  · rw [hsr]
    positivity

/-- Claim C6 witness: one erred outcome from the startup state strictly
decreases the success rate. -/
theorem c6_witness :
    (update_metrics (defaultMetrics 1) ⟨true, 0⟩ 0 0).success_rate
      < (defaultMetrics 1).success_rate :=
  (c6_erred_decreases (defaultMetrics 1) (Reachable.init 1) 0 0 0).2.1

lemma cache_ttl_pos (t : String) : 0 < cache_ttl t := by
  rw [cache_ttl]
  split_ifs <;> norm_num

/-- Claim C7: after setting a value for a cache type and key, a read of the
same pair returns that value exactly while its age is at most the TTL of the
type; once the age exceeds the TTL the read misses and evicts the entry, and
an immediate read after the set always returns the value. -/
theorem c7_cache_ttl {α : Type} (s : CacheState α) (cache_type key : String) (v : α)
    (tset now : ℚ) :
    ((SmartCacheManager.get (SmartCacheManager.set s cache_type key v tset)
        cache_type key now).1 = some v ↔ now - tset ≤ cache_ttl cache_type) ∧
    (cache_ttl cache_type < now - tset →
      (SmartCacheManager.get (SmartCacheManager.set s cache_type key v tset)
        cache_type key now).1 = none ∧
      (SmartCacheManager.get (SmartCacheManager.set s cache_type key v tset)
        cache_type key now).2.entries (cacheKey cache_type key) = none) ∧
    (SmartCacheManager.get (SmartCacheManager.set s cache_type key v tset)
        cache_type key tset).1 = some v := by
  have hentry : (SmartCacheManager.set s cache_type key v tset).entries
      (cacheKey cache_type key) = some (v, tset) := by
    simp [SmartCacheManager.set]
  refine ⟨?_, ?_, ?_⟩
  · simp only [SmartCacheManager.get, hentry]
    by_cases h : cache_ttl cache_type < now - tset
    · rw [if_pos h]
      simp only [Option.some.injEq, iff_iff_implies_and_implies]
      constructor
      · intro hc; exact absurd hc (by simp)
      · intro hc; linarith
    · rw [if_neg h]
      simp only [true_iff, Option.some.injEq]
      exact not_lt.mp h
  · intro h
    simp only [SmartCacheManager.get, hentry]
    rw [if_pos h]
    exact ⟨rfl, by simp⟩
  · simp only [SmartCacheManager.get, hentry]
    rw [if_neg (by have := cache_ttl_pos cache_type; intro hlt; linarith)]

/-- Claim C7 witness: a value cached under the emotions type at time 0 and
read at time 100 is expired and missed. -/
theorem c7_witness :
    (SmartCacheManager.get
      (SmartCacheManager.set (⟨fun _ => none⟩ : CacheState String) "emotions" "usa" "joy" 0)
      "emotions" "usa" 100).1 = none := by
  have h := (c7_cache_ttl (⟨fun _ => none⟩ : CacheState String) "emotions" "usa" "joy" 0 100).2.1
  exact (h (by norm_num [cache_ttl])).1

lemma priority_score_default (imp now : ℚ) (rc ac : Nat) :
    calculate_priority_score (defaultMetrics imp) rc ac now =
      (if rc < 20 then (10:ℚ) else if rc < 50 then 7 else if rc < 100 then 4 else 1) * 2
        + imp * (3/2) + 5 := by
  have hmin : min ((0:ℚ) / 10) 2 = 0 := by norm_num
  simp only [calculate_priority_score, defaultMetrics, hmin]
  norm_num

/-- Claim C8: for a country with default metrics and no failures, the
priority score is strictly decreasing in the stored post count across the
four data-need tiers, for every importance weight and clock reading. -/
theorem c8_data_need_monotone (imp now : ℚ) (c1 c2 c3 c4 a1 a2 a3 a4 : Nat)
    (h1 : c1 < 20) (h2a : 20 ≤ c2) (h2b : c2 < 50) (h3a : 50 ≤ c3) (h3b : c3 < 100)
    (h4 : 100 ≤ c4) :
    calculate_priority_score (defaultMetrics imp) c2 a2 now
      < calculate_priority_score (defaultMetrics imp) c1 a1 now ∧
    calculate_priority_score (defaultMetrics imp) c3 a3 now
      < calculate_priority_score (defaultMetrics imp) c2 a2 now ∧
    calculate_priority_score (defaultMetrics imp) c4 a4 now
      < calculate_priority_score (defaultMetrics imp) c3 a3 now := by
  rw [priority_score_default, priority_score_default, priority_score_default,
    priority_score_default]
  rw [if_pos h1, if_neg (by omega : ¬ c2 < 20), if_pos h2b,
    if_neg (by omega : ¬ c3 < 20), if_neg (by omega : ¬ c3 < 50), if_pos h3b,
    if_neg (by omega : ¬ c4 < 20), if_neg (by omega : ¬ c4 < 50),
    if_neg (by omega : ¬ c4 < 100)]
  refine ⟨by linarith, by linarith, by linarith⟩

/-- Claim C8 witness: the scores at stored counts 0, 20, 50 and 100 are
strictly decreasing. -/
theorem c8_witness :
    calculate_priority_score (defaultMetrics 1) 20 0 0
      < calculate_priority_score (defaultMetrics 1) 0 0 0 ∧
    calculate_priority_score (defaultMetrics 1) 50 0 0
      < calculate_priority_score (defaultMetrics 1) 20 0 0 ∧
    calculate_priority_score (defaultMetrics 1) 100 0 0
      < calculate_priority_score (defaultMetrics 1) 50 0 0 :=
  c8_data_need_monotone 1 0 0 20 50 100 0 0 0 0 (by norm_num) (by norm_num)
    (by norm_num) (by norm_num) (by norm_num) (by norm_num)

/-- Claim C9: load_models_lazy always leaves the resource pool loaded with
the last-used time set to now, changes nothing but the last-used time when
already loaded, and acquires the models when not loaded; and
unload_models_if_idle is the identity when not loaded, while on a loaded
state it releases the models exactly when the idle time strictly exceeds the
idle timeout. -/
theorem c9_resource_lifecycle (s : MLState) (now : ℚ) :
    ((load_models_lazy s now).models_loaded = true ∧
     (load_models_lazy s now).last_used = some now ∧
     (s.models_loaded = true → load_models_lazy s now = { s with last_used := some now }) ∧
     (s.models_loaded = false → (load_models_lazy s now).models = some ())) ∧
    ((s.models_loaded = false → unload_models_if_idle s now = some s) ∧
     (∀ t, s.models_loaded = true → s.last_used = some t →
        unload_models_if_idle s now =
          some (if s.idle_timeout < now - t then
                  { s with models := none, models_loaded := false }
                else s))) := by
  constructor
  · refine ⟨?_, ?_, ?_, ?_⟩
    · by_cases h : s.models_loaded = true <;> simp [load_models_lazy, h]
    · by_cases h : s.models_loaded = true <;> simp [load_models_lazy, h]
    · intro h; simp [load_models_lazy, h]
    · intro h; simp [load_models_lazy, h]
  · constructor
    · intro h
      rw [unload_models_if_idle, if_pos h]
    · intro t hl ht
      by_cases hidle : s.idle_timeout < now - t
      · simp [unload_models_if_idle, hl, ht, hidle]
      · simp [unload_models_if_idle, hl, ht, hidle]

/-- Claim C9 witness: the reaper is the identity on the initial unloaded
state. -/
theorem c9_witness : unload_models_if_idle initMLState 5 = some initMLState :=
  (c9_resource_lifecycle initMLState 5).2.1 rfl

/-- Claim C4: for any four algorithm winning labels, listed in the fixed
declaration order majority, confidence-weighted, intensity-weighted,
intensity-median, the consensus label attains the maximum count among the
four (it is a mode of the four winners), and when the four labels are
pairwise distinct the consensus label is the first algorithm winner. -/
theorem c4_consensus_mode (a b c d : String) :
    ∃ m, Monolith.consensus_emotion [a, b, c, d] = some m ∧
      (∀ e, ([a, b, c, d] : List String).count e ≤ ([a, b, c, d] : List String).count m) ∧
      (a ≠ b → a ≠ c → a ≠ d → b ≠ c → b ≠ d → c ≠ d → m = a) := by
  obtain ⟨m, hsome, _, hmax⟩ := pyMostCommon_spec [a, b, c, d] (by simp)
  refine ⟨m, ?_, hmax, ?_⟩
  · rw [Monolith.consensus_emotion, hsome]
    simp
  · intro hab hac had hbc hbd hcd
    have hk : keyListAux [a] [b, c, d] = [b, c, d] := by
      simp [keyListAux, Ne.symm hab, Ne.symm hac, Ne.symm hbc, Ne.symm had,
        Ne.symm hbd, Ne.symm hcd]
    have ha1 : ([a, b, c, d] : List String).count a = 1 := by
      simp [List.count_cons, hab, hac, had]
    have hball : ∀ x ∈ ([b, c, d] : List String),
        (fun y => ([a, b, c, d] : List String).count y) x
          ≤ (fun y => ([a, b, c, d] : List String).count y) a := by
      intro x hx
      rcases List.mem_cons.mp hx with rfl | hx
      · simp only [ha1]
        simp [List.count_cons, Ne.symm hab, hbc, hbd]
      · rcases List.mem_cons.mp hx with rfl | hx
        · simp only [ha1]
          simp [List.count_cons, Ne.symm hac, Ne.symm hbc, hcd]
        · rcases List.mem_cons.mp hx with rfl | hx
          · simp only [ha1]
            simp [List.count_cons, Ne.symm had, Ne.symm hbd, Ne.symm hcd]
          · exact absurd hx (List.not_mem_nil x)
    have hm2 : pyMostCommon [a, b, c, d]
        = some (argmaxAux (fun y => ([a, b, c, d] : List String).count y) a [b, c, d],
            ([a, b, c, d] : List String).count
              (argmaxAux (fun y => ([a, b, c, d] : List String).count y) a [b, c, d])) := by
      rw [pyMostCommon, keyList_cons, hk, pyMax]
    rw [hm2] at hsome
    have hma : m = argmaxAux (fun y => ([a, b, c, d] : List String).count y) a [b, c, d] :=
      (Prod.mk.injEq _ _ _ _ ▸ (Option.some.injEq _ _ ▸ hsome.symm)).1
    rw [hma, argmaxAux_eq_self _ _ _ hball]

/-- Claim C4 witness: on four pairwise distinct winners the consensus is the
majority algorithm winner, which also attains the maximal count. -/
theorem c4_witness :
    ∃ m, Monolith.consensus_emotion ["joy", "fear", "anger", "sadness"] = some m ∧
      m = "joy" := by
  obtain ⟨m, hsome, _, hsplit⟩ := c4_consensus_mode "joy" "fear" "anger" "sadness"
  exact ⟨m, hsome, hsplit (by decide) (by decide) (by decide) (by decide) (by decide)
    (by decide)⟩

/-- Claim C5: for every nonempty observation set with all confidences in
the unit interval, the combined confidence equals the agreement share of the
given label times 0.6 plus the mean of all raw confidences times 0.4 capped
at 1, and this value always lies in the unit interval. -/
theorem c5_confidence_formula (lab : String) (es : List String) (cs : List ℚ)
    (hes : es ≠ []) (h0 : ∀ c ∈ cs, 0 ≤ c) (h1 : ∀ c ∈ cs, c ≤ 1) :
    Monolith.calculate_confidence lab (counter es) cs
      = min (((es.count lab : ℚ) / (es.length : ℚ)) * (6/10)
          + (cs.sum / (cs.length : ℚ)) * (4/10)) 1 ∧
    0 ≤ Monolith.calculate_confidence lab (counter es) cs ∧
    Monolith.calculate_confidence lab (counter es) cs ≤ 1 := by
  have hlen : 0 < es.length := List.length_pos.mpr hes
  have heq : Monolith.calculate_confidence lab (counter es) cs
      = min (((es.count lab : ℚ) / (es.length : ℚ)) * (6/10)
          + (cs.sum / (cs.length : ℚ)) * (4/10)) 1 := by
    rw [Monolith.calculate_confidence]
    rw [lookup_counter, sum_counter, if_pos hlen, mean]
  refine ⟨heq, ?_, ?_⟩
  · rw [heq]
    have hA : (0:ℚ) ≤ (es.count lab : ℚ) / (es.length : ℚ) := by positivity
    have hB : (0:ℚ) ≤ cs.sum / (cs.length : ℚ) := by
      rcases List.eq_nil_or_concat cs with rfl | _
      · simp
      · exact div_nonneg (List.sum_nonneg h0) (by positivity)
    refine le_min (by nlinarith) (by norm_num)
  · rw [heq]
    exact min_le_right _ _

/-- Claim C5 witness: the combined confidence of a single joy observation at
confidence one half is within the unit interval and matches the formula. -/
theorem c5_witness :
    Monolith.calculate_confidence "joy" (counter ["joy"]) [1/2]
      = min (((( ["joy"] : List String).count "joy" : ℚ) / 1) * (6/10)
          + (((1:ℚ)/2) / 1) * (4/10)) 1 ∧
    Monolith.calculate_confidence "joy" (counter ["joy"]) [1/2] ≤ 1 := by
  have h := c5_confidence_formula "joy" ["joy"] [1/2] (by simp)
    (by intro c hc; rw [List.mem_singleton] at hc; rw [hc]; norm_num)
    (by intro c hc; rw [List.mem_singleton] at hc; rw [hc]; norm_num)
  refine ⟨?_, h.2.2⟩
  have := h.1
  simpa using this

lemma map_toPost_emotion (l : List SPost) :
    (l.map toPost).map (fun q => q.emotion) = l.map (fun q => q.emotion) := by
  induction l with
  | nil => rfl
  | cons p ps ih => simp [toPost, ih]

lemma map_toPost_confidence (l : List SPost) :
    (l.map toPost).map (fun q => q.confidence.getD (1/2)) = l.map (fun q => q.confidence) := by
  induction l with
  | nil => rfl
  | cons p ps ih => simp [toPost, ih]

lemma majority_agree (es : List String) (h : es ≠ []) :
    Service.majority_vote es = some (Monolith.majority_vote es) := by
  obtain ⟨m, hsome, _, _⟩ := pyMostCommon_spec es h
  rw [Service.majority_vote, Monolith.majority_vote, hsome]
  simp

lemma weighted_agree (es : List String) (cs : List ℚ) (he : es ≠ []) (hc : cs ≠ []) :
    Service.weighted_vote es cs = some (Monolith.weighted_vote es cs) := by
  obtain ⟨e, rest, rfl⟩ := List.exists_cons_of_ne_nil he
  obtain ⟨c, crest, rfl⟩ := List.exists_cons_of_ne_nil hc
  rw [Service.weighted_vote, Monolith.weighted_vote, if_neg (by simp)]
  simp only [List.zip_cons_cons, List.map_cons, keyList_cons, pyMax]
  simp

lemma intensity_agree (es : List String) (cs : List ℚ) (he : es ≠ []) (hc : cs ≠ []) :
    Service.intensity_weighted_vote es cs = some (Monolith.intensity_weighted_vote es cs) := by
  obtain ⟨e, rest, rfl⟩ := List.exists_cons_of_ne_nil he
  obtain ⟨c, crest, rfl⟩ := List.exists_cons_of_ne_nil hc
  rw [Service.intensity_weighted_vote, Monolith.intensity_weighted_vote, if_neg (by simp)]
  simp only [List.zip_cons_cons, List.map_cons, keyList_cons, pyMax]
  simp

lemma median_agree (es : List String) (cs : List ℚ) (he : es ≠ []) (hc : cs ≠ []) :
    Service.intensity_median_vote es cs = some (Monolith.intensity_median_vote es cs) := by
  obtain ⟨e, rest, rfl⟩ := List.exists_cons_of_ne_nil he
  obtain ⟨c, crest, rfl⟩ := List.exists_cons_of_ne_nil hc
  rw [Service.intensity_median_vote, Monolith.intensity_median_vote, if_neg (by simp)]
  simp only [List.zip_cons_cons, List.map_cons, keyList_cons, pyMax]
  simp

/-- Claim C10: on every nonempty observation list whose posts all carry an
explicit confidence, the service aggregator returns a result whose dominant
label, four per-algorithm winning labels, and pre-rounding confidence agree
with the archived monolith aggregator run on the same posts. -/
theorem c10_service_matches_monolith (l : List SPost) (h : l ≠ []) :
    ∃ r, Service.aggregate l = some r ∧
      ∃ mv, (Monolith.aggregate_country_emotions (l.map toPost)).algorithm_votes = some mv ∧
        (Monolith.aggregate_country_emotions (l.map toPost)).dominant_emotion
          = r.dominant_emotion ∧
        mv.majority.1 = r.algorithm_votes.majority ∧
        mv.weighted.1 = r.algorithm_votes.weighted ∧
        mv.intensity.1 = r.algorithm_votes.intensity ∧
        mv.intensity_median.1 = r.algorithm_votes.median ∧
        (Monolith.aggregate_country_emotions (l.map toPost)).confidence = r.confidence := by
  obtain ⟨p, ps, rfl⟩ := List.exists_cons_of_ne_nil h
  have hes : (p :: ps).map (fun q => q.emotion) ≠ [] := by simp
  have hcs : (p :: ps).map (fun q => q.confidence) ≠ [] := by simp
  obtain ⟨fm, hfm, _, _⟩ := pyMostCommon_spec
    [(Monolith.majority_vote ((p :: ps).map (fun q => q.emotion))).1,
     (Monolith.weighted_vote ((p :: ps).map (fun q => q.emotion))
        ((p :: ps).map (fun q => q.confidence))).1,
     (Monolith.intensity_weighted_vote ((p :: ps).map (fun q => q.emotion))
        ((p :: ps).map (fun q => q.confidence))).1,
     (Monolith.intensity_median_vote ((p :: ps).map (fun q => q.emotion))
        ((p :: ps).map (fun q => q.confidence))).1] (by simp)
  have hserv : Service.aggregate (p :: ps) = some
      { dominant_emotion := fm,
        confidence := Service.calculate_confidence fm
          (counter ((p :: ps).map (fun q => q.emotion)))
          ((p :: ps).map (fun q => q.confidence)),
        algorithm_votes :=
          ⟨(Monolith.majority_vote ((p :: ps).map (fun q => q.emotion))).1,
           (Monolith.weighted_vote ((p :: ps).map (fun q => q.emotion))
              ((p :: ps).map (fun q => q.confidence))).1,
           (Monolith.intensity_weighted_vote ((p :: ps).map (fun q => q.emotion))
              ((p :: ps).map (fun q => q.confidence))).1,
           (Monolith.intensity_median_vote ((p :: ps).map (fun q => q.emotion))
              ((p :: ps).map (fun q => q.confidence))).1⟩,
        post_count := (p :: ps).length,
        emotion_distribution := counter ((p :: ps).map (fun q => q.emotion)),
        weighted_scores := Service.calculate_weighted_scores
          ((p :: ps).map (fun q => q.emotion)) ((p :: ps).map (fun q => q.confidence)),
        average_confidence := mean ((p :: ps).map (fun q => q.confidence)) } := by
    simp only [Service.aggregate, majority_agree _ hes, weighted_agree _ _ hes hcs,
      intensity_agree _ _ hes hcs, median_agree _ _ hes hcs, Option.bind_eq_bind,
      Option.some_bind, Service.consensus_emotion, hfm, Option.map_some']
  have hmono : Monolith.aggregate_country_emotions ((p :: ps).map toPost) =
      { dominant_emotion := fm,
        confidence := Monolith.calculate_confidence fm
          (counter ((p :: ps).map (fun q => q.emotion)))
          ((p :: ps).map (fun q => q.confidence)),
        distribution := counter ((p :: ps).map (fun q => q.emotion)),
        weighted_scores := Monolith.calculate_weighted_scores
          ((p :: ps).map (fun q => q.emotion)) ((p :: ps).map (fun q => q.confidence)),
        algorithm_votes := some
          ⟨Monolith.majority_vote ((p :: ps).map (fun q => q.emotion)),
           Monolith.weighted_vote ((p :: ps).map (fun q => q.emotion))
              ((p :: ps).map (fun q => q.confidence)),
           Monolith.intensity_weighted_vote ((p :: ps).map (fun q => q.emotion))
              ((p :: ps).map (fun q => q.confidence)),
           Monolith.intensity_median_vote ((p :: ps).map (fun q => q.emotion))
              ((p :: ps).map (fun q => q.confidence))⟩ } := by
    simp only [Monolith.aggregate_country_emotions]
    rw [if_neg (by simp : ¬ (List.map toPost (p :: ps) = []))]
    rw [map_toPost_emotion, map_toPost_confidence]
    rw [Monolith.consensus_emotion, hfm]
    simp only [Option.map_some', Option.getD_some]
  refine ⟨_, hserv, _, by rw [hmono], by rw [hmono], rfl, rfl, rfl, rfl,
    by rw [hmono]; rfl⟩

/-- Claim C10 witness: the service aggregator succeeds on a single joy
observation. -/
theorem c10_witness : (Service.aggregate [⟨"joy", 9/10⟩]).isSome = true := by
  obtain ⟨r, hr, _⟩ := c10_service_matches_monolith [⟨"joy", 9/10⟩] (by simp)
  rw [hr]
  rfl
